import Mathlib

/-
Verification of the ghrequestor core (RequestorAction in the main source file,
together with the GHRequestor static helpers) against its specification.

The embedding models the fetch session, the retry and delay strategies, the
rate-limit governor, the paginator and the response flattener as pure Lean
functions.  JavaScript numbers that hold millisecond durations or epoch values
are modelled as Int (the arithmetic involved never overflows in the source
usage); status codes and counts as Nat.  A JavaScript falsy numeric option
(null / undefined / 0) is modelled as the Nat 0 where the source only tests
truthiness.  Header values that the source feeds through parseInt are modelled
as already-parsed Option Int values: none stands for an absent or unparseable
header (parseInt yields NaN there, and the source coerces NaN to 0 with
a disjunction against 0, modelled by parseIntOr0 below).
-/

namespace Ghrequestor

/-- Items of a page body.  The source treats bodies opaquely, so a fixed item
type suffices for the embedding. -/
abbrev Item := Nat

/-- Parsed link header, as produced by the external parse-link-header
collaborator: only the next relation matters to the paginator. -/
structure LinkSet where
  next : Option String := none
  deriving Repr, DecidableEq

/-- One HTTP response as seen by the session: status code, the two rate-limit
headers (already parsed, none when absent or unparseable), the parsed link
header (none when the raw link header is absent or empty, hence falsy), the
body, the request URL, the attempts count that the transport collaborator
stamps on the delivered response, and the _forbiddenDelay mark that
_retryStrategy sets on a 403. -/
structure Response where
  statusCode : Nat := 0
  xRatelimitRemaining : Option Int := none
  xRatelimitReset : Option Int := none
  link : Option LinkSet := none
  body : List Item := []
  url : String := ""
  attempts : Nat := 0
  forbiddenDelayMark : Option Nat := none
  deriving Repr, DecidableEq

instance : Inhabited Response := ⟨{}⟩

/-- Session options (RequestorAction._defaultOptions lists the defaults).
The json, headers User-Agent and logger entries carry no control flow in the
modelled fragment beyond header merging; mode is the options.mode string,
compared against "test" by the governor.  forbiddenDelay 0 models a falsy
(disabled) forbidden delay. -/
structure Options where
  maxAttempts : Nat := 5
  retryDelay : Nat := 500
  forbiddenDelay : Nat := 3 * 60 * 1000
  delayOnThrottle : Bool := true
  tokenLowerBound : Int := 500
  mode : Option String := none
  etags : Option (List (Option String)) := none
  headers : List (String × String) := [("User-Agent", "ghrequestor")]
  deriving Repr, DecidableEq

/-- Defaults of RequestorAction._defaultOptions. -/
def _defaultOptions : Options := {}

/-- Outcome of one transport attempt as handed to the strategies: either a
transport-level error (err set, no response) or a response (err null). -/
inductive AttemptOutcome where
  | error
  | response (r : Response)
  deriving Repr, DecidableEq

/-- Status code of an outcome; none when no response was received. -/
def AttemptOutcome.statusCode : AttemptOutcome → Option Nat
  | .error => none
  | .response r => some r.statusCode

/-- The _forbiddenDelay mark the delay strategy reads off the response
(null when there is no response). -/
def AttemptOutcome.forbiddenDelayOf : AttemptOutcome → Option Nat
  | .error => none
  | .response r => r.forbiddenDelayMark

/-- RequestorAction._retryStrategy: a 403 with a truthy forbiddenDelay marks
the response and retries; an error or a 5xx retries; everything else stops.
The marked outcome is returned alongside the decision because the source
communicates the mark to the delay strategy through the response object. -/
def _retryStrategy (opts : Options) : AttemptOutcome → Bool × AttemptOutcome
  | .error => (true, .error)
  | .response r =>
    if r.statusCode == 403 && opts.forbiddenDelay != 0 then
      (true, .response { r with forbiddenDelayMark := some opts.forbiddenDelay })
    else if 500 ≤ r.statusCode then (true, .response r)
    else (false, .response r)

/-- One retry or forbidden delay entry of an Activity Record. -/
inductive DelayEntry where
  | retry (ms : Nat)
  | forbidden (ms : Nat)
  deriving Repr, DecidableEq

/-- Per-page Activity Record: attempts is set only once a response arrives,
delays only once a retry delay is taken, rateLimitDelay only by the governor. -/
structure ActivityRecord where
  attempts : Option Nat := none
  delays : Option (List DelayEntry) := none
  rateLimitDelay : Option Int := none
  deriving Repr, DecidableEq

/-- RequestorAction._retryDelayStrategy, acting on the current page record
(the source fetches it as the last element of this.activity): append a
forbidden entry when the response carries a truthy _forbiddenDelay mark, a
retry entry otherwise, and return the matching duration. -/
def _retryDelayStrategy (opts : Options) (outcome : AttemptOutcome)
    (activity : ActivityRecord) : Nat × ActivityRecord :=
  match outcome.forbiddenDelayOf with
  | some d =>
    if d ≠ 0 then
      (d, { activity with delays := some (activity.delays.getD [] ++ [.forbidden d]) })
    else
      (opts.retryDelay,
       { activity with delays := some (activity.delays.getD [] ++ [.retry opts.retryDelay]) })
  | none =>
    (opts.retryDelay,
     { activity with delays := some (activity.delays.getD [] ++ [.retry opts.retryDelay]) })

/-- Delivery of the final outcome of a page fetch: the transport collaborator
stamps the number of attempts made onto the delivered response. -/
def deliver : AttemptOutcome → Nat → AttemptOutcome
  | .error, _ => .error
  | .response r, n => .response { r with attempts := n }

/-- Modelled from the spec: the attempt loop of the external transport
collaborator (the requestretry module, which is not part of this repository).
Per the spec, after each attempt the retry strategy decides eligibility; when
it approves and attempts remain below maxAttempts, the delay strategy is
consulted for the wait (appending one DelayEntry to the current page record)
and another attempt is issued; otherwise the last outcome is delivered,
stamped with the attempts count.  transport gives the outcome of each
attempt; attemptNo is 1-based; remaining counts the attempts still allowed
including the current one (a remaining of 0, maxAttempts 0 in the source,
still performs the one attempt already in flight). -/
def requestWithRetries (opts : Options) (transport : Nat → AttemptOutcome) :
    Nat → Nat → ActivityRecord → AttemptOutcome × ActivityRecord
  | attemptNo, 0, activity => (deliver (_retryStrategy opts (transport attemptNo)).2 attemptNo, activity)
  | attemptNo, 1, activity => (deliver (_retryStrategy opts (transport attemptNo)).2 attemptNo, activity)
  | attemptNo, remaining + 2, activity =>
    let out := _retryStrategy opts (transport attemptNo)
    if out.1 then
      let (_, activity') := _retryDelayStrategy opts out.2 activity
      requestWithRetries opts transport (attemptNo + 1) (remaining + 1) activity'
    else
      (deliver out.2 attemptNo, activity)

/-- Key-by-key header merge, as the extend calls of GHRequestor.mergeOptions
perform it: keys of the second map override the first, new keys are appended. -/
def setHeader (hs : List (String × String)) (k v : String) : List (String × String) :=
  if hs.any (fun p => p.1 == k) then hs.map (fun p => if p.1 == k then (k, v) else p)
  else hs ++ [(k, v)]

/-- Merge of two header maps (second over first). -/
def mergeHeaders (base given : List (String × String)) : List (String × String) :=
  given.foldl (fun acc p => setHeader acc p.1 p.2) base

/-- Etag injection of RequestorAction._get (the block right after the page
record is pushed): when the configuration carries etags, the entry indexed by
the activity length minus one (the 0-based page number) is attached, if
truthy, as an If-None-Match header via GHRequestor.mergeOptions, which builds
a fresh merged options object and leaves the stored configuration intact.
activityLength is the activity length after the push. -/
def _etagOptions (opts : Options) (activityLength : Nat) : Options :=
  match opts.etags with
  | some etags =>
    match etags.getD (activityLength - 1) none with
    | some etag =>
      if etag ≠ "" then
        { opts with headers := mergeHeaders opts.headers [("If-None-Match", etag)] }
      else opts
    | none => opts
  | none => opts

/-- Coercion the source applies to the parsed rate-limit headers: parseInt of
an absent or unparseable header is NaN, and the trailing disjunction with 0
turns NaN (and 0 itself) into 0. -/
def parseIntOr0 : Option Int → Int
  | some n => n
  | none => 0

/-- Result of one page fetch (RequestorAction._get): the settled response
(none when the fetch rejected with an error), the session activity after this
page, the headers the page request was sent with, and the proactive sleep
actually performed by the governor (none when no sleep happened, in
particular in test mode). -/
structure GetResult where
  response : Option Response
  activity : List ActivityRecord
  sentHeaders : List (String × String)
  governorSleep : Option Int
  deriving Repr, DecidableEq

/-- RequestorAction._get: push a fresh page record, inject the page etag,
run the transport with the bound strategies, then either reject (error with
no response: attempts stays unset), settle a status of at least 300 as a
plain response, or run the rate-limit governor before yielding a successful
response.  now stands for Date.now at governor time. -/
def _get (opts : Options) (now : Int) (transport : Nat → AttemptOutcome)
    (activity : List ActivityRecord) : GetResult :=
  let record : ActivityRecord := {}
  let options := _etagOptions opts (activity.length + 1)
  let (outcome, record) := requestWithRetries opts transport 1 opts.maxAttempts record
  match outcome with
  | .error =>
      { response := none, activity := activity ++ [record],
        sentHeaders := options.headers, governorSleep := none }
  | .response r =>
      let record := { record with attempts := some r.attempts }
      if 300 ≤ r.statusCode then
        { response := some r, activity := activity ++ [record],
          sentHeaders := options.headers, governorSleep := none }
      else
        let remaining := parseIntOr0 r.xRatelimitRemaining
        let reset := parseIntOr0 r.xRatelimitReset
        if opts.delayOnThrottle && remaining < opts.tokenLowerBound then
          let toSleep := max (reset * 1000 - now) 2000
          let record := { record with rateLimitDelay := some toSleep }
          if opts.mode != some "test" then
            { response := some r, activity := activity ++ [record],
              sentHeaders := options.headers, governorSleep := some toSleep }
          else
            { response := some r, activity := activity ++ [record],
              sentHeaders := options.headers, governorSleep := none }
        else
          { response := some r, activity := activity ++ [record],
            sentHeaders := options.headers, governorSleep := none }

/-- Terminal error of a pagination run: the triggering response (if any) and
the accumulated activity, as stashed on the error object by _getAll. -/
structure PaginationError where
  response : Option Response := none
  activity : List ActivityRecord := []
  deriving Repr, DecidableEq

/-- RequestorAction._getAll: fetch the page whose 0-based number is the
current activity length, abort on error, append the settled response to the
result, stop on a status of at least 300 other than 304, follow the next
link when present, stop otherwise.  pages maps a page number to that page
transport (the source follows the literal next URL; the embedding indexes
pages by fetch order, which the run visits in the same order).  fuel bounds
the recursion; none in the first component reports fuel exhaustion, a model
artifact that the theorems avoid by supplying enough fuel. -/
def _getAll (opts : Options) (now : Int) (pages : Nat → Nat → AttemptOutcome) :
    Nat → List Response → List ActivityRecord →
    Option (Except PaginationError (List Response)) × List ActivityRecord
  | 0, _, activity => (none, activity)
  | fuel + 1, result, activity =>
    let res := _get opts now (pages activity.length) activity
    match res.response with
    | none => (some (.error { response := none, activity := res.activity }), res.activity)
    | some r =>
      let result := result ++ [r]
      if 300 ≤ r.statusCode ∧ r.statusCode ≠ 304 then (some (.ok result), res.activity)
      else
        match r.link with
        | some links =>
          match links.next with
          | some _ => _getAll opts now pages fuel result res.activity
          | none => (some (.ok result), res.activity)
        | none => (some (.ok result), res.activity)

/-- RequestorAction.getAll: a fresh session (empty result and activity)
driving _getAll. -/
def getAll (opts : Options) (now : Int) (pages : Nat → Nat → AttemptOutcome)
    (fuel : Nat) : Option (Except PaginationError (List Response)) × List ActivityRecord :=
  _getAll opts now pages fuel [] []

/-- Continue condition of the paginator as the source implements it: the
settled response neither stopped pagination (status at least 300 and not
304) nor lacked a next relation. -/
def continuesPagination (r : Response) : Bool :=
  (r.statusCode < 300 || r.statusCode == 304) && (r.link.bind LinkSet.next).isSome

/-- Continue condition as the claim about pagination states it: status
exactly 200 or 304, with a next relation.  Declared for comparison with
continuesPagination, the condition of the source. -/
def continuesPaginationClaimed (r : Response) : Bool :=
  (r.statusCode == 200 || r.statusCode == 304) && (r.link.bind LinkSet.next).isSome

/-- Resolution of one response during flattening (the function mapped over
the responses by GHRequestor.flattenResponses): a 200 yields its body, a 304
consults the supplier and is a configuration error without one, anything
else is an error naming the status code. -/
def flattenOne (supplier : Option (String → List Item)) (r : Response) :
    Except String (List Item) :=
  if r.statusCode = 200 then .ok r.body
  else if r.statusCode = 304 then
    match supplier with
    | none => .error "304 response encountered but no content supplier found"
    | some s => .ok (s r.url)
  else .error ("Cannot flatten response with status code: " ++ toString r.statusCode)

/-- Sequencing of the per-response chunks: the all combinator of the source
rejects the whole operation with the first rejection, in input order. -/
def flattenChunks (supplier : Option (String → List Item)) :
    List Response → Except String (List (List Item))
  | [] => .ok []
  | r :: rest =>
    match flattenOne supplier r with
    | .error e => .error e
    | .ok chunk =>
      match flattenChunks supplier rest with
      | .error e => .error e
      | .ok chunks => .ok (chunk :: chunks)

/-- GHRequestor.flattenResponses: resolve every page to its chunk and reduce
the chunks by concatenation, preserving page order. -/
def flattenResponses (responses : List Response)
    (supplier : Option (String → List Item)) : Except String (List Item) :=
  (flattenChunks supplier responses).map List.flatten

/-- Transport environment induced by a concrete chain of pages: page k always
answers with element k of the chain, on every attempt. -/
def chainPages (chain : List Response) (k : Nat) : Nat → AttemptOutcome :=
  fun _ => .response (chain.getD k default)

/-- Presence of a next relation on a response. -/
def hasNextLink (r : Response) : Bool :=
  (r.link.bind LinkSet.next).isSome

/-- C1: for every attempt outcome, the retry policy retries exactly on a
transport-level error (no response), a status of at least 500, or a 403;
every other status is terminal.  The 403 arm of the source additionally
tests the truthiness of the configured forbiddenDelay, so the hypothesis
requires it nonzero, which the default of 3 minutes satisfies. -/
theorem retry_iff_error_5xx_or_403 (opts : Options) (h : opts.forbiddenDelay ≠ 0)
    (o : AttemptOutcome) :
    (_retryStrategy opts o).1 = true ↔
      o.statusCode = none ∨ ∃ s, o.statusCode = some s ∧ (500 ≤ s ∨ s = 403) := by
  cases o with
  | error => simp [_retryStrategy, AttemptOutcome.statusCode]
  | response r =>
    by_cases h403 : r.statusCode = 403
    · simp [_retryStrategy, AttemptOutcome.statusCode, h403, h]
    · by_cases h5 : 500 ≤ r.statusCode
      · simp [_retryStrategy, AttemptOutcome.statusCode, h403, h5]
      · simp [_retryStrategy, AttemptOutcome.statusCode, h403, h5]

/-- Witness for C1: under the default options a 500 response is retried. -/
theorem retry_iff_error_5xx_or_403_witness :
    (_retryStrategy _defaultOptions (.response { statusCode := 500 })).1 = true :=
  (retry_iff_error_5xx_or_403 _defaultOptions (by decide)
      (.response { statusCode := 500 })).mpr (Or.inr ⟨500, rfl, Or.inl (by decide)⟩)

/-- C2: when a retry is triggered, the delay strategy (acting on the outcome
as marked by the retry strategy, the way the transport collaborator feeds it)
returns the configured forbiddenDelay and appends a forbidden entry to the
current page record exactly when the outcome was a 403; any other retried
outcome returns the configured retryDelay and appends a retry entry, so a 403
never yields a retry entry.  The freshness hypothesis says the response came
from the transport without a pre-existing mark, as in the source. -/
theorem delay_forbidden_iff_403 (opts : Options) (o : AttemptOutcome)
    (rec : ActivityRecord) (hfresh : o.forbiddenDelayOf = none)
    (hretry : (_retryStrategy opts o).1 = true) :
    (o.statusCode = some 403 →
      _retryDelayStrategy opts (_retryStrategy opts o).2 rec =
        (opts.forbiddenDelay,
         { rec with delays := some (rec.delays.getD [] ++
             [.forbidden opts.forbiddenDelay]) })) ∧
    (o.statusCode ≠ some 403 →
      _retryDelayStrategy opts (_retryStrategy opts o).2 rec =
        (opts.retryDelay,
         { rec with delays := some (rec.delays.getD [] ++
             [.retry opts.retryDelay]) })) := by
  cases o with
  | error =>
    refine ⟨fun hc => by simp [AttemptOutcome.statusCode] at hc, fun _ => ?_⟩
    simp [_retryStrategy, _retryDelayStrategy, AttemptOutcome.forbiddenDelayOf]
  | response r =>
    by_cases h403 : r.statusCode = 403
    · have hfd : opts.forbiddenDelay ≠ 0 := by
        intro h0
        simp [_retryStrategy, h403, h0] at hretry
      constructor
      · intro _
        simp [_retryStrategy, h403, hfd, _retryDelayStrategy,
          AttemptOutcome.forbiddenDelayOf]
      · intro hc
        exact absurd (by simp [AttemptOutcome.statusCode, h403]) hc
    · refine ⟨fun hc => by simp [AttemptOutcome.statusCode, h403] at hc, fun _ => ?_⟩
      have hsnd : (_retryStrategy opts (.response r)).2 = .response r := by
        simp only [_retryStrategy]
        have : (r.statusCode == 403) = false := by simp [h403]
        simp only [this, Bool.false_and, Bool.false_eq_true, if_false]
        split <;> rfl
      rw [hsnd]
      have hmark : r.forbiddenDelayMark = none := hfresh
      simp [_retryDelayStrategy, AttemptOutcome.forbiddenDelayOf, hmark]

/-- Witness for C2: a retried 403 under the default options yields the
3-minute forbidden delay and a forbidden entry on an empty record. -/
theorem delay_forbidden_iff_403_witness :
    _retryDelayStrategy _defaultOptions
        (_retryStrategy _defaultOptions (.response { statusCode := 403 })).2 {} =
      (180000, { delays := some [.forbidden 180000] }) := by
  have h := (delay_forbidden_iff_403 _defaultOptions
      (.response { statusCode := 403 }) {} rfl (by decide)).1 rfl
  simpa using h

/-- Helper: an outcome the strategy always retries without marking (a
transport error, or a 5xx response with no pre-existing mark) drives the
attempt loop to exhaustion: with m + 1 attempts allowed it makes them all and
appends m retry entries to the page record. -/
theorem requestWithRetries_always_retry (opts : Options) (o : AttemptOutcome)
    (hstrat : _retryStrategy opts o = (true, o)) (hfd : o.forbiddenDelayOf = none) :
    ∀ (m a : Nat) (rec : ActivityRecord),
      requestWithRetries opts (fun _ => o) a (m + 1) rec =
        (deliver o (a + m),
         if m = 0 then rec
         else { rec with delays := some (rec.delays.getD [] ++
                  List.replicate m (.retry opts.retryDelay)) }) := by
  intro m
  induction m with
  | zero =>
    intro a rec
    simp [requestWithRetries, hstrat]
  | succ m ih =>
    intro a rec
    have hdelay : _retryDelayStrategy opts o rec =
        (opts.retryDelay,
         { rec with delays := some (rec.delays.getD [] ++ [.retry opts.retryDelay]) }) := by
      simp [_retryDelayStrategy, hfd]
    rw [show m + 1 + 1 = m + 2 from rfl]
    rw [requestWithRetries]
    simp only [hstrat, if_true, hdelay]
    rw [ih (a + 1)]
    have ha : a + 1 + m = a + (m + 1) := by omega
    rw [ha]
    rcases Nat.eq_zero_or_pos m with hm | hm
    · subst hm
      simp
    · have hm' : m ≠ 0 := by omega
      simp only [hm', if_false, Nat.succ_ne_zero, Prod.mk.injEq, true_and]
      simp [List.replicate_succ, List.append_assoc]

/-- Helper: a response the strategy never retries (status below 500 and not
403) is delivered on the first attempt, with the page record untouched. -/
theorem requestWithRetries_no_retry (opts : Options) (r : Response)
    (h403 : r.statusCode ≠ 403) (h5 : r.statusCode < 500) :
    ∀ (n a : Nat) (rec : ActivityRecord),
      requestWithRetries opts (fun _ => .response r) a n rec =
        (.response { r with attempts := a }, rec) := by
  have hstrat : _retryStrategy opts (.response r) = (false, .response r) := by
    have hb : (r.statusCode == 403) = false := by simp [h403]
    have h5' : ¬ 500 ≤ r.statusCode := by omega
    simp [_retryStrategy, hb, h5']
  intro n
  match n with
  | 0 => intro a rec; simp [requestWithRetries, hstrat, deliver]
  | 1 => intro a rec; simp [requestWithRetries, hstrat, deliver]
  | n + 2 => intro a rec; simp [requestWithRetries, hstrat, deliver]

/-- C3: with maxAttempts N of at least 1, a page whose every attempt returns
status 500 is attempted exactly N times: the fetch settles with the failing
500 response (stamped with N attempts, hence terminal, no further attempt),
and the page Activity Record has attempts N and N - 1 retry delay entries,
each equal to the configured retryDelay (the delays field stays absent when
no retry happened, that is when N is 1). -/
theorem get_all_500_attempts (opts : Options) (N : Nat) (hN : opts.maxAttempts = N)
    (h1 : 1 ≤ N) (r5 : Response) (h5 : r5.statusCode = 500)
    (hmark : r5.forbiddenDelayMark = none) (now : Int) :
    _get opts now (fun _ => .response r5) [] =
      { response := some { r5 with attempts := N },
        activity := [{ attempts := some N,
                       delays := if N = 1 then none
                                 else some (List.replicate (N - 1) (.retry opts.retryDelay)),
                       rateLimitDelay := none }],
        sentHeaders := (_etagOptions opts 1).headers,
        governorSleep := none } := by
  obtain ⟨m, rfl⟩ : ∃ m, N = m + 1 := ⟨N - 1, by omega⟩
  have hstrat : _retryStrategy opts (.response r5) = (true, .response r5) := by
    have hb : (r5.statusCode == 403) = false := by simp [h5]
    have h5' : 500 ≤ r5.statusCode := by omega
    simp [_retryStrategy, hb, h5']
  have hfd : AttemptOutcome.forbiddenDelayOf (.response r5) = none := hmark
  have h300 : 300 ≤ r5.statusCode := by omega
  simp only [_get, hN]
  rw [requestWithRetries_always_retry opts (.response r5) hstrat hfd m 1 {}]
  simp only [deliver]
  have hatt : 1 + m = m + 1 := by omega
  rcases Nat.eq_zero_or_pos m with hm | hm
  · subst hm
    simp [h300]
  · have hm' : m ≠ 0 := by omega
    have hm1 : ¬ (m + 1 = 1) := by omega
    simp [h300, hm', hm1, hatt]

/-- Witness for C3: the default options (maxAttempts 5) against a constant
plain 500 page settle after 5 attempts with four 500 ms retry delays. -/
theorem get_all_500_attempts_witness :
    _get _defaultOptions 0 (fun _ => .response { statusCode := 500 }) [] =
      { response := some { statusCode := 500, attempts := 5 },
        activity := [{ attempts := some 5,
                       delays := some (List.replicate 4 (.retry 500)),
                       rateLimitDelay := none }],
        sentHeaders := [("User-Agent", "ghrequestor")],
        governorSleep := none } := by
  rw [get_all_500_attempts _defaultOptions 5 rfl (by omega)
    { statusCode := 500 } rfl rfl 0]
  decide

/-- C7: a page whose every attempt ends in a transport-level error (no
response) makes the fetch reject with a terminal error carrying the full
activity, whose single Activity Record has no attempts field while keeping
the recorded retry delay entries, and the pagination run aborts with that
error, delivering no partial result. -/
theorem getAll_transport_error (opts : Options) (N : Nat) (hN : opts.maxAttempts = N)
    (h1 : 1 ≤ N) (now : Int) (fuel : Nat) (h0 : 0 < fuel) :
    ∃ rec : ActivityRecord,
      getAll opts now (fun _ _ => .error) fuel =
        (some (.error { response := none, activity := [rec] }), [rec]) ∧
      rec.attempts = none ∧
      rec.delays.getD [] = List.replicate (N - 1) (.retry opts.retryDelay) := by
  obtain ⟨f, rfl⟩ : ∃ f, fuel = f + 1 := ⟨fuel - 1, by omega⟩
  obtain ⟨m, rfl⟩ : ∃ m, N = m + 1 := ⟨N - 1, by omega⟩
  have hget : _get opts now (fun _ => .error) [] =
      { response := none,
        activity := [if m = 0 then {}
                     else { delays := some (List.replicate m (.retry opts.retryDelay)) }],
        sentHeaders := (_etagOptions opts 1).headers,
        governorSleep := none } := by
    simp only [_get, hN]
    rw [requestWithRetries_always_retry opts .error rfl rfl m 1 {}]
    rcases Nat.eq_zero_or_pos m with hm | hm
    · subst hm
      simp [deliver]
    · have hm' : m ≠ 0 := by omega
      simp [deliver, hm']
  refine ⟨if m = 0 then {}
          else { delays := some (List.replicate m (.retry opts.retryDelay)) }, ?_, ?_, ?_⟩
  · simp only [getAll, _getAll, hget]
  · rcases Nat.eq_zero_or_pos m with hm | hm
    · subst hm
      rfl
    · have hm' : m ≠ 0 := by omega
      simp [hm']
  · rcases Nat.eq_zero_or_pos m with hm | hm
    · subst hm
      rfl
    · have hm' : m ≠ 0 := by omega
      simp [hm']

/-- Witness for C7: under the default options a run over an always-failing
transport aborts with an error whose record has no attempts and four retry
delays. -/
theorem getAll_transport_error_witness :
    ∃ rec : ActivityRecord,
      (getAll _defaultOptions 0 (fun _ _ => .error) 3 =
        (some (.error { response := none, activity := [rec] }), [rec])) ∧
      rec.attempts = none ∧
      rec.delays.getD [] = List.replicate 4 (.retry 500) :=
  getAll_transport_error _defaultOptions 5 rfl (by omega) 0 3 (by omega)

/-- Helper: full characterization of _get on a successful (status below 300)
response when the rate-limit governor engages (throttling enabled and the
parsed remaining quota below the lower bound): the computed sleep goes onto
the page record, and the actual sleep is skipped exactly in test mode. -/
theorem get_governor_engaged (opts : Options) (now : Int) (r : Response)
    (activity : List ActivityRecord) (hsucc : r.statusCode < 300)
    (hthrottle : opts.delayOnThrottle = true)
    (hlow : parseIntOr0 r.xRatelimitRemaining < opts.tokenLowerBound) :
    _get opts now (fun _ => .response r) activity =
      { response := some { r with attempts := 1 },
        activity := activity ++
          [{ attempts := some 1, delays := none,
             rateLimitDelay := some (max (parseIntOr0 r.xRatelimitReset * 1000 - now) 2000) }],
        sentHeaders := (_etagOptions opts (activity.length + 1)).headers,
        governorSleep := if opts.mode = some "test" then none
                         else some (max (parseIntOr0 r.xRatelimitReset * 1000 - now) 2000) } := by
  have h403 : r.statusCode ≠ 403 := by omega
  have h5 : r.statusCode < 500 := by omega
  have h300 : ¬ 300 ≤ r.statusCode := by omega
  simp only [_get]
  rw [requestWithRetries_no_retry opts r h403 h5 opts.maxAttempts 1 {}]
  by_cases hm : opts.mode = some "test"
  · simp [h300, hthrottle, hlow, hm]
  · simp [h300, hthrottle, hlow, hm]

/-- C4: every successful (status below 300) response whose remaining-quota
header parses below the configured tokenLowerBound while proactive throttling
is enabled gets rateLimitDelay equal to the maximum of the reset instant in
milliseconds minus now and 2000 recorded on its page Activity Record (hence
at least 2000 ms), and in test mode the value is recorded but no sleep is
performed before the response is yielded. -/
theorem governor_records_rate_limit_delay (opts : Options) (now : Int)
    (r : Response) (activity : List ActivityRecord) (hsucc : r.statusCode < 300)
    (hthrottle : opts.delayOnThrottle = true)
    (hlow : parseIntOr0 r.xRatelimitRemaining < opts.tokenLowerBound) :
    (_get opts now (fun _ => .response r) activity).response = some { r with attempts := 1 } ∧
    (_get opts now (fun _ => .response r) activity).activity = activity ++
      [{ attempts := some 1, delays := none,
         rateLimitDelay := some (max (parseIntOr0 r.xRatelimitReset * 1000 - now) 2000) }] ∧
    (2000 : Int) ≤ max (parseIntOr0 r.xRatelimitReset * 1000 - now) 2000 ∧
    (opts.mode = some "test" →
      (_get opts now (fun _ => .response r) activity).governorSleep = none) := by
  rw [get_governor_engaged opts now r activity hsucc hthrottle hlow]
  refine ⟨rfl, rfl, le_max_right _ _, fun hm => ?_⟩
  simp [hm]

/-- Witness for C4: a 200 response with 3 tokens remaining in test mode under
the default options records a 2000 ms delay and sleeps nothing. -/
theorem governor_records_rate_limit_delay_witness :
    (_get { mode := some "test" } 0
        (fun _ => .response { statusCode := 200, xRatelimitRemaining := some 3 }) []).response =
      some { statusCode := 200, xRatelimitRemaining := some 3, attempts := 1 } ∧
    (_get { mode := some "test" } 0
        (fun _ => .response { statusCode := 200, xRatelimitRemaining := some 3 }) []).activity =
      [{ attempts := some 1, delays := none, rateLimitDelay := some 2000 }] ∧
    (_get { mode := some "test" } 0
        (fun _ => .response { statusCode := 200, xRatelimitRemaining := some 3 }) []).governorSleep =
      none := by
  have h := governor_records_rate_limit_delay { mode := some "test" } 0
    { statusCode := 200, xRatelimitRemaining := some 3 } [] (by decide) rfl (by decide)
  exact ⟨h.1, by simpa using h.2.1, h.2.2.2 rfl⟩

/-- C10: a successful response whose remaining-quota header is absent or
unparseable is treated as 0 remaining tokens; under the default
tokenLowerBound of 500 with throttling enabled the governor therefore fires,
recording a rateLimitDelay of at least 2000 ms, and outside test mode the
session actually sleeps that long before yielding the response. -/
theorem governor_fires_on_missing_remaining_header (opts : Options) (now : Int)
    (r : Response) (activity : List ActivityRecord) (hsucc : r.statusCode < 300)
    (habsent : r.xRatelimitRemaining = none)
    (hthrottle : opts.delayOnThrottle = true)
    (hbound : opts.tokenLowerBound = 500) :
    parseIntOr0 r.xRatelimitRemaining = 0 ∧
    (_get opts now (fun _ => .response r) activity).response = some { r with attempts := 1 } ∧
    (_get opts now (fun _ => .response r) activity).activity = activity ++
      [{ attempts := some 1, delays := none,
         rateLimitDelay := some (max (parseIntOr0 r.xRatelimitReset * 1000 - now) 2000) }] ∧
    (2000 : Int) ≤ max (parseIntOr0 r.xRatelimitReset * 1000 - now) 2000 ∧
    (opts.mode ≠ some "test" →
      (_get opts now (fun _ => .response r) activity).governorSleep =
        some (max (parseIntOr0 r.xRatelimitReset * 1000 - now) 2000)) := by
  have h0 : parseIntOr0 r.xRatelimitRemaining = 0 := by
    rw [habsent]
    rfl
  have hlow : parseIntOr0 r.xRatelimitRemaining < opts.tokenLowerBound := by
    rw [h0, hbound]
    omega
  rw [get_governor_engaged opts now r activity hsucc hthrottle hlow]
  refine ⟨h0, rfl, rfl, le_max_right _ _, fun hm => ?_⟩
  simp [hm]

/-- Witness for C10: a 200 response with no rate-limit headers under the
default options (not in test mode) records a 2000 ms delay and sleeps it. -/
theorem governor_fires_on_missing_remaining_header_witness :
    parseIntOr0 (none : Option Int) = 0 ∧
    (_get _defaultOptions 0 (fun _ => .response { statusCode := 200 }) []).activity =
      [{ attempts := some 1, delays := none, rateLimitDelay := some 2000 }] ∧
    (_get _defaultOptions 0 (fun _ => .response { statusCode := 200 }) []).governorSleep =
      some 2000 := by
  have h := governor_fires_on_missing_remaining_header _defaultOptions 0
    { statusCode := 200 } [] (by decide) rfl rfl rfl
  refine ⟨h.1, by simpa using h.2.2.1, ?_⟩
  have h5 := h.2.2.2.2 (by decide)
  simpa using h5

/-- Helper: a page settling on its first attempt with a status below 300 or
equal to 304 is delivered as-is (stamped with one attempt), appending exactly
one record to the session activity; the governor branch only varies the
record and the performed sleep. -/
theorem get_success_eq (opts : Options) (now : Int) (r : Response)
    (activity : List ActivityRecord)
    (hs : r.statusCode < 300 ∨ r.statusCode = 304) :
    ∃ (rec : ActivityRecord) (sleep : Option Int),
      _get opts now (fun _ => .response r) activity =
        { response := some { r with attempts := 1 },
          activity := activity ++ [rec],
          sentHeaders := (_etagOptions opts (activity.length + 1)).headers,
          governorSleep := sleep } := by
  have h403 : r.statusCode ≠ 403 := by rcases hs with h | h <;> omega
  have h5 : r.statusCode < 500 := by rcases hs with h | h <;> omega
  simp only [_get]
  rw [requestWithRetries_no_retry opts r h403 h5 opts.maxAttempts 1 {}]
  dsimp only
  split_ifs <;> exact ⟨_, _, rfl⟩

/-- Helper: one paginator step over a page with a good status (below 300 or
304) carrying a next relation appends the delivered response and continues
with the next page, consuming one unit of fuel and one activity record. -/
theorem getAll_step_good (opts : Options) (now : Int) (chain : List Response)
    (k f : Nat) (result : List Response) (activity : List ActivityRecord)
    (hlen : activity.length = k)
    (hstat : (chain.getD k default).statusCode < 300 ∨
             (chain.getD k default).statusCode = 304)
    (hnext : hasNextLink (chain.getD k default) = true) :
    ∃ rec : ActivityRecord,
      _getAll opts now (chainPages chain) (f + 1) result activity =
        _getAll opts now (chainPages chain) f
          (result ++ [{ chain.getD k default with attempts := 1 }])
          (activity ++ [rec]) := by
  obtain ⟨rec, sleep, hg⟩ := get_success_eq opts now (chain.getD k default) activity hstat
  obtain ⟨url, hurl⟩ := Option.isSome_iff_exists.mp hnext
  refine ⟨rec, ?_⟩
  rw [_getAll]
  simp only [hlen]
  have hg' : _get opts now (chainPages chain k) activity =
      { response := some { chain.getD k default with attempts := 1 },
        activity := activity ++ [rec],
        sentHeaders := (_etagOptions opts (activity.length + 1)).headers,
        governorSleep := sleep } := hg
  rw [hg']
  dsimp only
  have hcond : ¬(300 ≤ (chain.getD k default).statusCode ∧
      (chain.getD k default).statusCode ≠ 304) := by
    rcases hstat with h | h
    · intro hc
      omega
    · intro hc
      exact hc.2 h
  rw [if_neg hcond]
  cases hl : (chain.getD k default).link with
  | none =>
    rw [hl] at hurl
    simp at hurl
  | some links =>
    rw [hl] at hurl
    have hurl' : links.next = some url := hurl
    dsimp only
    rw [hurl']

/-- Helper: against a transport that always answers with the same response,
the attempt loop delivers that response (possibly carrying a forbidden mark
and the attempts stamp) after some number of attempts. -/
theorem requestWithRetries_const_response (opts : Options) (r : Response) :
    ∀ (n a : Nat) (rec : ActivityRecord),
      ∃ (k : Nat) (mk : Option Nat) (rec2 : ActivityRecord),
        requestWithRetries opts (fun _ => .response r) a n rec =
          (.response { r with attempts := k, forbiddenDelayMark := mk }, rec2) := by
  have hsnd : ∃ mk, (_retryStrategy opts (.response r)).2 =
      .response { r with forbiddenDelayMark := mk } := by
    simp only [_retryStrategy]
    split_ifs
    · exact ⟨some opts.forbiddenDelay, rfl⟩
    · exact ⟨r.forbiddenDelayMark, rfl⟩
    · exact ⟨r.forbiddenDelayMark, rfl⟩
  obtain ⟨mk0, hsnd⟩ := hsnd
  intro n
  induction n using Nat.strong_induction_on with
  | _ n ih =>
    match n with
    | 0 =>
      intro a rec
      refine ⟨a, mk0, rec, ?_⟩
      simp only [requestWithRetries]
      rw [hsnd]
      rfl
    | 1 =>
      intro a rec
      refine ⟨a, mk0, rec, ?_⟩
      simp only [requestWithRetries]
      rw [hsnd]
      rfl
    | n + 2 =>
      intro a rec
      rw [requestWithRetries]
      dsimp only
      by_cases hretry : (_retryStrategy opts (.response r)).1 = true
      · simp only [hretry, if_true]
        rcases he : _retryDelayStrategy opts (_retryStrategy opts (.response r)).2 rec
          with ⟨d, act2⟩
        exact ih (n + 1) (by omega) (a + 1) act2
      · simp only [Bool.not_eq_true] at hretry
        simp only [hretry, Bool.false_eq_true, if_false]
        refine ⟨a, mk0, rec, ?_⟩
        rw [hsnd]
        rfl

/-- Helper: a page whose constant transport response has a status of at
least 300 makes _get settle with that response (stamped, possibly marked),
skipping the governor and appending one record. -/
theorem get_const_bad_status (opts : Options) (now : Int) (r : Response)
    (activity : List ActivityRecord) (hbad : 300 ≤ r.statusCode) :
    ∃ (k : Nat) (mk : Option Nat) (rec : ActivityRecord),
      _get opts now (fun _ => .response r) activity =
        { response := some { r with attempts := k, forbiddenDelayMark := mk },
          activity := activity ++ [rec],
          sentHeaders := (_etagOptions opts (activity.length + 1)).headers,
          governorSleep := none } := by
  obtain ⟨k, mk, rec2, hloop⟩ :=
    requestWithRetries_const_response opts r opts.maxAttempts 1 {}
  refine ⟨k, mk, { rec2 with attempts := some k }, ?_⟩
  simp only [_get]
  rw [hloop]
  dsimp only
  rw [if_pos hbad]

/-- Helper: one paginator step over a page with a good status but no next
relation stops the run there, delivering the accumulated pages. -/
theorem getAll_step_last (opts : Options) (now : Int) (chain : List Response)
    (k f : Nat) (result : List Response) (activity : List ActivityRecord)
    (hlen : activity.length = k)
    (hstat : (chain.getD k default).statusCode < 300 ∨
             (chain.getD k default).statusCode = 304)
    (hstop : hasNextLink (chain.getD k default) = false) :
    ∃ rec : ActivityRecord,
      _getAll opts now (chainPages chain) (f + 1) result activity =
        (some (.ok (result ++ [{ chain.getD k default with attempts := 1 }])),
         activity ++ [rec]) := by
  obtain ⟨rec, sleep, hg⟩ := get_success_eq opts now (chain.getD k default) activity hstat
  refine ⟨rec, ?_⟩
  rw [_getAll]
  simp only [hlen]
  have hg' : _get opts now (chainPages chain k) activity =
      { response := some { chain.getD k default with attempts := 1 },
        activity := activity ++ [rec],
        sentHeaders := (_etagOptions opts (activity.length + 1)).headers,
        governorSleep := sleep } := hg
  rw [hg']
  dsimp only
  have hcond : ¬(300 ≤ (chain.getD k default).statusCode ∧
      (chain.getD k default).statusCode ≠ 304) := by
    rcases hstat with h | h
    · intro hc
      omega
    · intro hc
      exact hc.2 h
  rw [if_neg hcond]
  have hnone : (chain.getD k default).link.bind LinkSet.next = none := by
    cases ho : (chain.getD k default).link.bind LinkSet.next with
    | none => rfl
    | some u =>
      unfold hasNextLink at hstop
      rw [ho] at hstop
      simp at hstop
  cases hl : (chain.getD k default).link with
  | none => rfl
  | some links =>
    rw [hl] at hnone
    have hnone' : links.next = none := hnone
    dsimp only
    rw [hnone']

/-- Helper: one paginator step over a page whose constant response has a
status of at least 300 other than 304 appends that settled response and
stops the run, delivering the accumulated pages without an error. -/
theorem getAll_step_bad (opts : Options) (now : Int) (chain : List Response)
    (k f : Nat) (result : List Response) (activity : List ActivityRecord)
    (hlen : activity.length = k)
    (hbad : 300 ≤ (chain.getD k default).statusCode)
    (h304 : (chain.getD k default).statusCode ≠ 304) :
    ∃ (kk : Nat) (mk : Option Nat) (rec : ActivityRecord),
      _getAll opts now (chainPages chain) (f + 1) result activity =
        (some (.ok (result ++
           [{ chain.getD k default with attempts := kk, forbiddenDelayMark := mk }])),
         activity ++ [rec]) := by
  obtain ⟨kk, mk, rec, hg⟩ := get_const_bad_status opts now (chain.getD k default) activity hbad
  refine ⟨kk, mk, rec, ?_⟩
  rw [_getAll]
  simp only [hlen]
  have hg' : _get opts now (chainPages chain k) activity =
      { response := some { chain.getD k default with attempts := kk, forbiddenDelayMark := mk },
        activity := activity ++ [rec],
        sentHeaders := (_etagOptions opts (activity.length + 1)).headers,
        governorSleep := none } := hg
  rw [hg']
  dsimp only
  rw [if_pos ⟨hbad, h304⟩]

/-- Helper: shifting a mapped range by one, head form. -/
theorem range_map_shift {α : Type} (g : Nat → α) (m k : Nat) :
    g k :: (List.range m).map (fun i => g (k + 1 + i)) =
    (List.range (m + 1)).map (fun i => g (k + i)) := by
  rw [List.range_succ_eq_map, List.map_cons, List.map_map]
  simp only [Function.comp_def, Nat.add_zero]
  congr 1
  apply List.map_congr_left
  intro a _
  congr 1
  omega

/-- Helper: the paginator runs through m consecutive good pages (status
below 300 or 304, each with a next relation), appending their delivered
responses in fetch order and one activity record per page, and continues
from page k + m with the remaining fuel. -/
theorem getAll_chain_prefix (opts : Options) (now : Int) (chain : List Response) :
    ∀ (m k f : Nat) (result : List Response) (activity : List ActivityRecord),
      activity.length = k →
      (∀ i, k ≤ i → i < k + m →
        ((chain.getD i default).statusCode < 300 ∨
         (chain.getD i default).statusCode = 304) ∧
        hasNextLink (chain.getD i default) = true) →
      ∃ recs : List ActivityRecord, recs.length = m ∧
        _getAll opts now (chainPages chain) (m + f) result activity =
          _getAll opts now (chainPages chain) f
            (result ++ (List.range m).map
              (fun i => { chain.getD (k + i) default with attempts := 1 }))
            (activity ++ recs) := by
  intro m
  induction m with
  | zero =>
    intro k f result activity hlen hgood
    exact ⟨[], rfl, by simp⟩
  | succ m ih =>
    intro k f result activity hlen hgood
    obtain ⟨hstat, hnext⟩ := hgood k (le_refl k) (by omega)
    obtain ⟨rec, hstep⟩ :=
      getAll_step_good opts now chain k (m + f) result activity hlen hstat hnext
    obtain ⟨recs, hrlen, hrest⟩ := ih (k + 1) f
      (result ++ [{ chain.getD k default with attempts := 1 }]) (activity ++ [rec])
      (by simp [hlen]) (fun i hi1 hi2 => hgood i (by omega) (by omega))
    refine ⟨rec :: recs, by simp [hrlen], ?_⟩
    have hmf : m + 1 + f = (m + f) + 1 := by omega
    rw [hmf, hstep, hrest]
    have hlist : (({ chain.getD k default with attempts := 1 } : Response) ::
        (List.range m).map (fun i => { chain.getD (k + 1 + i) default with attempts := 1 })) =
        (List.range (m + 1)).map (fun i => { chain.getD (k + i) default with attempts := 1 }) :=
      range_map_shift (fun j => { chain.getD j default with attempts := 1 }) m k
    rw [List.append_assoc result, List.singleton_append, hlist,
      List.append_assoc activity, List.singleton_append]

/-- C6 (amended): over a chain of successful pages (status below 300 or 304)
in which pages 0 to n - 1 carry a next relation and page n lacks one,
pagination fetches exactly pages 0 to n (one activity record per fetched
page), terminating at the first response without a next relation, and the
delivered result lists the pages in fetch order, each response (body
included) as delivered. -/
theorem paginator_follows_next_chain (opts : Options) (now : Int)
    (chain : List Response) (n fuel : Nat) (hfuel : n < fuel)
    (hgood : ∀ i, i < n →
      ((chain.getD i default).statusCode < 300 ∨
       (chain.getD i default).statusCode = 304) ∧
      hasNextLink (chain.getD i default) = true)
    (hlast : (chain.getD n default).statusCode < 300 ∨
             (chain.getD n default).statusCode = 304)
    (hstop : hasNextLink (chain.getD n default) = false) :
    (getAll opts now (chainPages chain) fuel).1 =
      some (.ok ((List.range (n + 1)).map
        (fun i => { chain.getD i default with attempts := 1 }))) ∧
    (getAll opts now (chainPages chain) fuel).2.length = n + 1 := by
  obtain ⟨f, rfl⟩ : ∃ f, fuel = n + (f + 1) := ⟨fuel - n - 1, by omega⟩
  obtain ⟨recs, hrlen, heq⟩ := getAll_chain_prefix opts now chain n 0 (f + 1) [] [] rfl
    (fun i hi1 hi2 => hgood i (by omega))
  obtain ⟨rec, hlaststep⟩ := getAll_step_last opts now chain n f
    ([] ++ (List.range n).map (fun i => { chain.getD (0 + i) default with attempts := 1 }))
    ([] ++ recs) (by simp [hrlen]) hlast hstop
  unfold getAll
  rw [heq, hlaststep]
  have hmap : (List.range n).map
      (fun i => ({ chain.getD (0 + i) default with attempts := 1 } : Response)) =
      (List.range n).map (fun i => { chain.getD i default with attempts := 1 }) := by
    apply List.map_congr_left
    intro a _
    rw [Nat.zero_add]
  constructor
  · simp only [List.nil_append, hmap]
    rw [List.range_succ, List.map_append]
    rfl
  · simp [hrlen]

/-- Concrete chain for the pagination claims: page 0 answers 204 (a 2xx other
than 200) with a next relation, page 1 answers 200 without one.  The quota
headers are high enough to keep the governor out of the run. -/
def c6Page0 : Response :=
  { statusCode := 204, link := some { next := some "page2" },
    xRatelimitRemaining := some 5000 }

/-- Second page of the concrete chain. -/
def c6Page1 : Response :=
  { statusCode := 200, xRatelimitRemaining := some 5000 }

/-- Counterexample to C6 as stated: the paginator fetched page 1 (two
activity records, one per page fetch) although page 0, which continued the
run, has status 204 — neither 200 nor 304 — so the claimed continue
condition (status 200 or 304, with a next relation) is false of it while the
implemented condition holds. -/
theorem paginator_claimed_condition_counterexample :
    continuesPaginationClaimed c6Page0 = false ∧
    c6Page0.statusCode ≠ 200 ∧ c6Page0.statusCode ≠ 304 ∧
    continuesPagination c6Page0 = true ∧
    (getAll _defaultOptions 0 (chainPages [c6Page0, c6Page1]) 5).2.length = 2 := by
  refine ⟨rfl, by decide, by decide, rfl, ?_⟩
  rfl

/-- Witness for C6 (amended): the concrete 204-then-200 chain is followed to
its end, both pages delivered in order. -/
theorem paginator_follows_next_chain_witness :
    (getAll _defaultOptions 0 (chainPages [c6Page0, c6Page1]) 3).1 =
      some (.ok [{ c6Page0 with attempts := 1 }, { c6Page1 with attempts := 1 }]) ∧
    (getAll _defaultOptions 0 (chainPages [c6Page0, c6Page1]) 3).2.length = 2 := by
  have h := paginator_follows_next_chain _defaultOptions 0 [c6Page0, c6Page1] 1 3
    (by omega)
    (fun i hi => by
      have hi0 : i = 0 := by omega
      subst hi0
      exact ⟨Or.inl (by decide), by decide⟩)
    (Or.inl (by decide)) (by decide)
  refine ⟨?_, h.2⟩
  rw [h.1]
  rfl

/-- C5: when pagination reaches a page that settles with a response whose
status is at least 300 and not 304 (after pages 0 to n - 1 succeeded with
next relations), the paginator appends that settled response to the result
and stops without raising an error, so the previously gathered pages are
preserved in the delivered partial result, in fetch order. -/
theorem paginator_stops_on_failing_status (opts : Options) (now : Int)
    (chain : List Response) (n fuel : Nat) (hfuel : n < fuel)
    (hgood : ∀ i, i < n →
      ((chain.getD i default).statusCode < 300 ∨
       (chain.getD i default).statusCode = 304) ∧
      hasNextLink (chain.getD i default) = true)
    (hbad : 300 ≤ (chain.getD n default).statusCode)
    (h304 : (chain.getD n default).statusCode ≠ 304) :
    ∃ (kk : Nat) (mk : Option Nat),
      (getAll opts now (chainPages chain) fuel).1 =
        some (.ok ((List.range n).map
          (fun i => { chain.getD i default with attempts := 1 }) ++
          [{ chain.getD n default with attempts := kk, forbiddenDelayMark := mk }])) ∧
      (getAll opts now (chainPages chain) fuel).2.length = n + 1 := by
  obtain ⟨f, rfl⟩ : ∃ f, fuel = n + (f + 1) := ⟨fuel - n - 1, by omega⟩
  obtain ⟨recs, hrlen, heq⟩ := getAll_chain_prefix opts now chain n 0 (f + 1) [] [] rfl
    (fun i hi1 hi2 => hgood i (by omega))
  obtain ⟨kk, mk, rec, hbadstep⟩ := getAll_step_bad opts now chain n f
    ([] ++ (List.range n).map (fun i => { chain.getD (0 + i) default with attempts := 1 }))
    ([] ++ recs) (by simp [hrlen]) hbad h304
  have hmap : (List.range n).map
      (fun i => ({ chain.getD (0 + i) default with attempts := 1 } : Response)) =
      (List.range n).map (fun i => { chain.getD i default with attempts := 1 }) := by
    apply List.map_congr_left
    intro a _
    rw [Nat.zero_add]
  refine ⟨kk, mk, ?_, ?_⟩
  · unfold getAll
    rw [heq, hbadstep]
    simp only [List.nil_append, hmap]
  · unfold getAll
    rw [heq, hbadstep]
    simp [hrlen]

/-- First page for the C5 witness chain: a 200 carrying a next relation. -/
def c5Page0 : Response :=
  { statusCode := 200, link := some { next := some "page2" },
    xRatelimitRemaining := some 5000 }

/-- Second page for the C5 witness chain: a plain 404. -/
def c5Page1 : Response := { statusCode := 404 }

/-- Witness for C5: a 200-then-404 chain delivers both responses and stops
without an error. -/
theorem paginator_stops_on_failing_status_witness :
    ∃ (kk : Nat) (mk : Option Nat),
      (getAll _defaultOptions 0 (chainPages [c5Page0, c5Page1]) 3).1 =
        some (.ok [{ c5Page0 with attempts := 1 },
          { c5Page1 with attempts := kk, forbiddenDelayMark := mk }]) ∧
      (getAll _defaultOptions 0 (chainPages [c5Page0, c5Page1]) 3).2.length = 2 := by
  obtain ⟨kk, mk, h1, h2⟩ := paginator_stops_on_failing_status _defaultOptions 0
    [c5Page0, c5Page1] 1 3 (by omega)
    (fun i hi => by
      have hi0 : i = 0 := by omega
      subst hi0
      exact ⟨Or.inl (by decide), by decide⟩)
    (by decide) (by decide)
  refine ⟨kk, mk, ?_, h2⟩
  rw [h1]
  rfl

/-- Helper: all pages 200 resolve to their bodies in order. -/
theorem flattenChunks_all200 (s : Option (String → List Item)) :
    ∀ rs : List Response, (∀ r ∈ rs, r.statusCode = 200) →
      flattenChunks s rs = .ok (rs.map Response.body) := by
  intro rs
  induction rs with
  | nil => intro _; rfl
  | cons r rest ih =>
    intro h
    have hr : r.statusCode = 200 := h r (by simp)
    have h1 : flattenOne s r = .ok r.body := by
      simp [flattenOne, hr]
    rw [flattenChunks, h1, ih (fun p hp => h p (by simp [hp]))]
    rfl

/-- Helper: with a supplier, pages that are all 200 or 304 resolve to their
bodies or the supplied items, in order. -/
theorem flattenChunks_with_supplier (f : String → List Item) :
    ∀ rs : List Response, (∀ r ∈ rs, r.statusCode = 200 ∨ r.statusCode = 304) →
      flattenChunks (some f) rs =
        .ok (rs.map (fun r => if r.statusCode = 200 then r.body else f r.url)) := by
  intro rs
  induction rs with
  | nil => intro _; rfl
  | cons r rest ih =>
    intro h
    have h1 : flattenOne (some f) r =
        .ok (if r.statusCode = 200 then r.body else f r.url) := by
      rcases h r (by simp) with hr | hr <;> simp [flattenOne, hr]
    rw [flattenChunks, h1, ih (fun p hp => h p (by simp [hp]))]
    rfl

/-- Helper: without a supplier, a sequence of 200 and 304 pages containing at
least one 304 fails with the configuration error. -/
theorem flattenChunks_304_no_supplier :
    ∀ rs : List Response, (∀ r ∈ rs, r.statusCode = 200 ∨ r.statusCode = 304) →
      (∃ r ∈ rs, r.statusCode = 304) →
      flattenChunks none rs =
        .error "304 response encountered but no content supplier found" := by
  intro rs
  induction rs with
  | nil =>
    intro _ hex
    simp at hex
  | cons r rest ih =>
    intro h hex
    by_cases hr : r.statusCode = 304
    · have h1 : flattenOne none r =
          .error "304 response encountered but no content supplier found" := by
        simp [flattenOne, hr]
      rw [flattenChunks, h1]
    · have hr200 : r.statusCode = 200 := by
        rcases h r (by simp) with h2 | h2
        · exact h2
        · exact absurd h2 hr
      have h1 : flattenOne none r = .ok r.body := by
        simp [flattenOne, hr200]
      have hex' : ∃ p ∈ rest, p.statusCode = 304 := by
        rcases hex with ⟨p, hp, hp304⟩
        rcases List.mem_cons.mp hp with hpe | hpm
        · subst hpe
          exact absurd hp304 hr
        · exact ⟨p, hpm, hp304⟩
      rw [flattenChunks, h1, ih (fun p hp => h p (by simp [hp])) hex']

/-- Helper: the first page that is neither 200 nor 304 (after a prefix of 200
pages) fails the whole resolution with the error naming its status code. -/
theorem flattenChunks_bad_status (s : Option (String → List Item)) :
    ∀ (pre : List Response) (bad : Response) (post : List Response),
      (∀ p ∈ pre, p.statusCode = 200) →
      bad.statusCode ≠ 200 → bad.statusCode ≠ 304 →
      flattenChunks s (pre ++ bad :: post) =
        .error ("Cannot flatten response with status code: " ++ toString bad.statusCode) := by
  intro pre
  induction pre with
  | nil =>
    intro bad post _ h200 h304
    have h1 : flattenOne s bad =
        .error ("Cannot flatten response with status code: " ++ toString bad.statusCode) := by
      simp [flattenOne, h200, h304]
    rw [List.nil_append, flattenChunks, h1]
  | cons p pre ih =>
    intro bad post hpre h200 h304
    have hp : p.statusCode = 200 := hpre p (by simp)
    have h1 : flattenOne s p = .ok p.body := by
      simp [flattenOne, hp]
    rw [List.cons_append, flattenChunks, h1,
      ih bad post (fun q hq => hpre q (by simp [hq])) h200 h304]

/-- C8: flattening includes each 200 page body as-is in input order; a 304
page without a supplier fails the whole operation with the configuration
error; with a supplier the supplied items appear at that page position; and
a page with any other status fails the operation with an error identifying
that status code. -/
theorem flattenResponses_spec (rs : List Response) (f : String → List Item)
    (s : Option (String → List Item)) :
    ((∀ r ∈ rs, r.statusCode = 200) →
      flattenResponses rs s = .ok ((rs.map Response.body).flatten)) ∧
    ((∀ r ∈ rs, r.statusCode = 200 ∨ r.statusCode = 304) →
      (∃ r ∈ rs, r.statusCode = 304) →
      flattenResponses rs none =
        .error "304 response encountered but no content supplier found") ∧
    ((∀ r ∈ rs, r.statusCode = 200 ∨ r.statusCode = 304) →
      flattenResponses rs (some f) =
        .ok ((rs.map (fun r => if r.statusCode = 200 then r.body else f r.url)).flatten)) ∧
    (∀ pre bad post, rs = pre ++ bad :: post →
      (∀ p ∈ pre, p.statusCode = 200) →
      bad.statusCode ≠ 200 → bad.statusCode ≠ 304 →
      flattenResponses rs s =
        .error ("Cannot flatten response with status code: " ++ toString bad.statusCode)) := by
  refine ⟨?_, ?_, ?_, ?_⟩
  · intro h
    unfold flattenResponses
    rw [flattenChunks_all200 s rs h]
    rfl
  · intro h hex
    unfold flattenResponses
    rw [flattenChunks_304_no_supplier rs h hex]
    rfl
  · intro h
    unfold flattenResponses
    rw [flattenChunks_with_supplier f rs h]
    rfl
  · intro pre bad post hsplit hpre h200 h304
    unfold flattenResponses
    rw [hsplit, flattenChunks_bad_status s pre bad post hpre h200 h304]
    rfl

/-- Witness for C8: a 200 page followed by a 304 page flattens with a
supplier, fails without one, and a 404 fails with its code named. -/
theorem flattenResponses_spec_witness :
    flattenResponses [{ statusCode := 200, body := [1, 2] }] none = .ok [1, 2] ∧
    flattenResponses [{ statusCode := 200, body := [1, 2] },
        { statusCode := 304, url := "u" }] none =
      .error "304 response encountered but no content supplier found" ∧
    flattenResponses [{ statusCode := 200, body := [1, 2] },
        { statusCode := 304, url := "u" }] (some fun _ => [9]) = .ok [1, 2, 9] ∧
    flattenResponses [{ statusCode := 200, body := [1, 2] },
        { statusCode := 404 }] none =
      .error "Cannot flatten response with status code: 404" := by
  refine ⟨?_, ?_, ?_, ?_⟩
  · have h := (flattenResponses_spec [{ statusCode := 200, body := [1, 2] }]
      (fun _ => [9]) none).1 (by decide)
    rw [h]
    rfl
  · have h := (flattenResponses_spec [{ statusCode := 200, body := [1, 2] },
      { statusCode := 304, url := "u" }] (fun _ => [9]) none).2.1 (by decide)
      ⟨{ statusCode := 304, url := "u" }, by simp, rfl⟩
    rw [h]
  · have h := (flattenResponses_spec [{ statusCode := 200, body := [1, 2] },
      { statusCode := 304, url := "u" }] (fun _ => [9]) none).2.2.1 (by decide)
    rw [h]
    rfl
  · have h := (flattenResponses_spec [{ statusCode := 200, body := [1, 2] },
      { statusCode := 404 }] (fun _ => [9]) none).2.2.2
      [{ statusCode := 200, body := [1, 2] }] { statusCode := 404 } [] rfl
      (by decide) (by decide) (by decide)
    rw [h]
    rfl

/-- Helper: whatever the transport does, a page request is sent with the
headers of the per-page injected options (the page index being the activity
length after the push of the page record). -/
theorem get_sentHeaders (opts : Options) (now : Int)
    (transport : Nat → AttemptOutcome) (activity : List ActivityRecord) :
    (_get opts now transport activity).sentHeaders =
      (_etagOptions opts (activity.length + 1)).headers := by
  rcases h : requestWithRetries opts transport 1 opts.maxAttempts {} with ⟨outcome, rec⟩
  simp only [_get]
  rw [h]
  cases outcome with
  | error => rfl
  | response r =>
    dsimp only
    split_ifs <;> rfl

/-- C9: with an etags sequence configured, page k of a pagination run (the
k-th fetch, 0-based, identified by the activity length when the fetch
begins) sends the etag at index k as its If-None-Match header, merged over
the configured headers, exactly when that entry is present and truthy; an
absent or falsy entry leaves the headers untouched; and the injected options
differ from the stored configuration in the headers only (the merge builds a
fresh object, so the stored configuration is not mutated and later pages see
the original options). -/
theorem etag_header_per_page (opts : Options) (es : List (Option String))
    (hes : opts.etags = some es) (k : Nat) (now : Int)
    (transport : Nat → AttemptOutcome) (activity : List ActivityRecord)
    (hlen : activity.length = k) :
    (∀ etag, es.getD k none = some etag → etag ≠ "" →
      (_get opts now transport activity).sentHeaders =
        mergeHeaders opts.headers [("If-None-Match", etag)]) ∧
    (es.getD k none = none →
      (_get opts now transport activity).sentHeaders = opts.headers) ∧
    (es.getD k none = some "" →
      (_get opts now transport activity).sentHeaders = opts.headers) ∧
    ((_etagOptions opts (k + 1)).etags = opts.etags ∧
     (_etagOptions opts (k + 1)).maxAttempts = opts.maxAttempts ∧
     (_etagOptions opts (k + 1)).retryDelay = opts.retryDelay ∧
     (_etagOptions opts (k + 1)).forbiddenDelay = opts.forbiddenDelay ∧
     (_etagOptions opts (k + 1)).delayOnThrottle = opts.delayOnThrottle ∧
     (_etagOptions opts (k + 1)).tokenLowerBound = opts.tokenLowerBound ∧
     (_etagOptions opts (k + 1)).mode = opts.mode) := by
  have hsh : (_get opts now transport activity).sentHeaders =
      (_etagOptions opts (k + 1)).headers := by
    rw [get_sentHeaders, hlen]
  have hidx : k + 1 - 1 = k := by omega
  refine ⟨?_, ?_, ?_, ?_⟩
  · intro etag he hne
    rw [hsh]
    simp only [_etagOptions, hes, hidx, he]
    rw [if_pos hne]
  · intro he
    rw [hsh]
    simp only [_etagOptions, hes, hidx, he]
  · intro he
    rw [hsh]
    simp only [_etagOptions, hes, hidx, he]
    rw [if_neg (by simp)]
  · unfold _etagOptions
    repeat' split
    all_goals exact ⟨rfl, rfl, rfl, rfl, rfl, rfl, rfl⟩

/-- Witness for C9: with etags configured, page 0 sends its etag as
If-None-Match over the default headers. -/
theorem etag_header_per_page_witness :
    (_get { etags := some [some "abc", none] } 0
        (fun _ => .response { statusCode := 200 }) []).sentHeaders =
      [("User-Agent", "ghrequestor"), ("If-None-Match", "abc")] := by
  have h := (etag_header_per_page { etags := some [some "abc", none] }
    [some "abc", none] rfl 0 0
    (fun _ => .response { statusCode := 200 }) [] rfl).1 "abc" rfl (by decide)
  rw [h]
  rfl

end Ghrequestor
